import Mathlib

/-
Verification of the go-flagz etcd updater and the DynProto3 dynamic flag value.

The development shallowly embeds the two source files:
  * the etcd `Updater` (lifecycle, bulk read, watch loop, rollback),
  * the `DynProto3Value` container (sniffing Set, validator, notifier, String).

External collaborators (the etcd client, the pflag registry entries, the
jsonpb/proto codecs) are modelled at their interface boundary: a flag is a
record carrying its dynamic marker and an acceptance predicate standing for
its own parse/validate `Set`, the store is a list of nodes plus callbacks for
the conditioned write/delete issued by rollback, and the proto codecs are a
record of parse/serialize functions supplied as a parameter.
-/

set_option autoImplicit false

namespace GoFlagz

/-! Go `strings` helpers, re-expressed over the character-list model so that
they evaluate inside the kernel. -/

/-- Character-list core of `strings.HasPrefix`: does `s` start with `p`? -/
def listStarts : List Char → List Char → Bool
  | _, [] => true
  | [], _ :: _ => false
  | c :: cs, q :: qs => c == q && listStarts cs qs

/-- Go `strings.HasPrefix s p`. -/
def goHasStart (s p : String) : Bool :=
  listStarts s.toList p.toList

/-- Go `strings.HasSuffix s p`. -/
def goHasEnd (s p : String) : Bool :=
  listStarts s.toList.reverse p.toList.reverse

/-- Go `strings.TrimPrefix s p`: drop the leading occurrence of `p` when
present, otherwise return `s` unchanged. -/
def goTrimStart (s p : String) : String :=
  if goHasStart s p then ⟨s.toList.drop p.toList.length⟩ else s

/-- Whitespace test used by the trimming helper. -/
def isSpaceChar (c : Char) : Bool :=
  c == ' ' || c == '\t' || c == '\n' || c == '\r'

/-- Drop leading whitespace characters. -/
def dropLeadSpace : List Char → List Char
  | [] => []
  | c :: cs => if isSpaceChar c then dropLeadSpace cs else c :: cs

/-- Go `strings.TrimSpace`: drop leading and trailing whitespace. -/
def goTrimSpace (s : String) : String :=
  ⟨(dropLeadSpace (dropLeadSpace s.toList).reverse).reverse⟩

/-- Go `strings.Count s "/"` for the single-character pattern used here. -/
def countSlash (s : String) : Nat :=
  s.toList.count '/'

/-! The flag registry boundary. A pflag entry exposes a dynamic marker
(`flagz.IsFlagDynamic`), its own `Value.Set(string) → error` (modelled by the
`accepts` predicate: the parse/validate step), and the stored text. -/

/-- One registered flag: the dynamic marker, the acceptance predicate of its
own `Set` (parse/validate), and its currently stored value. -/
structure Flag where
  dynamic : Bool
  accepts : String → Bool
  value : String

/-- The flag registry, keyed by flag name. -/
abbrev FlagSet := List (String × Flag)

/-- Registry lookup, `flagSet.Lookup(name)`: first entry with the given name. -/
def lookupFlag : FlagSet → String → Option Flag
  | [], _ => none
  | (k, f) :: rest, name => if k = name then some f else lookupFlag rest name

/-- Store the given text into the named flag (the successful branch of
`flag.Value.Set`). -/
def updateFlag : FlagSet → String → String → FlagSet
  | [], _, _ => []
  | (k, f) :: rest, name, v =>
    if k = name then (k, { f with value := v }) :: rest
    else (k, f) :: updateFlag rest name v

/-! Etcd node and response model. -/

/-- One etcd node as seen in responses: key, value, directory marker and the
modification index. -/
structure Node where
  key : String
  value : String
  dir : Bool
  modifiedIndex : Nat
  deriving DecidableEq

/-- Result of the recursive `KeysAPI.Get`: the response index and the child
nodes of the prefix directory. -/
structure GetResponse where
  index : Nat
  nodes : List Node

/-- One watch response: the action, the changed node and the optional
previous node. -/
structure WatchResponse where
  action : String
  node : Node
  prevNode : Option Node

/-- Errors surfaced by the updater lifecycle and the bulk read. -/
inductive UpdaterError where
  | alreadyInitialized
  | notInitialized
  | alreadyWatching
  | notWatching
  | storeError
  | aggregateErrors (errs : List String)
  deriving DecidableEq

/-- Error outcomes of `setFlag`, mirroring `errNoValue`, `errFlagNotDynamic`,
the lookup failure and a failing `flag.Value.Set`. -/
inductive SetFlagError where
  | noValue
  | notFound (name : String)
  | notDynamic
  | setFailed (name value : String)
  deriving DecidableEq

/-- Rendering of a `setFlag` error, as accumulated into the aggregate error. -/
def errString : SetFlagError → String
  | .noValue => "no value in Node"
  | .notFound name => "flag=" ++ name ++ " was not found"
  | .notDynamic => "flag is not dynamic"
  | .setFailed name v => "setting flag=" ++ name ++ " to value=" ++ v ++ " failed"

/-- The updater state: registry, normalized etcd path, resume cursor and the
watching marker. -/
structure Updater where
  flagSet : FlagSet
  etcdPath : String
  lastIndex : Nat
  watching : Bool

/-- Constructor `New`: normalizes the path to end with a separator and starts
with a zero cursor, not watching. -/
def New (set : FlagSet) (etcdPath : String) : Updater :=
  { flagSet := set
    etcdPath := if goHasEnd etcdPath "/" then etcdPath else etcdPath ++ "/"
    lastIndex := 0
    watching := false }

/-- Translation of a node key to a flag name (`nodeToFlagName`): rejects
directory nodes, keys outside the prefix, and keys deeper than one segment. -/
def nodeToFlagName (etcdPath : String) (n : Node) : Except String String :=
  if n.dir then .error ("key " ++ n.key ++ " is a directory entry")
  else if !(goHasStart n.key etcdPath) then
    .error ("key " ++ n.key ++ " does not start with etcd path " ++ etcdPath)
  else
    let truncated := goTrimStart n.key etcdPath
    if 0 < countSlash truncated then
      .error ("key " ++ n.key ++ " is not a direct leaf of etcd path " ++ etcdPath)
    else .ok truncated

/-- Per-entry apply (`setFlag`): empty values are `noValue`, unknown flags are
`notFound`, non-dynamic flags are rejected under `onlyDynamic`, and otherwise
the flag performs its own parse/validate before storing. -/
def setFlag (fs : FlagSet) (flagName value : String) (onlyDynamic : Bool) :
    Except SetFlagError FlagSet :=
  if value = "" then .error .noValue
  else
    match lookupFlag fs flagName with
    | none => .error (.notFound flagName)
    | some fl =>
      if onlyDynamic && !fl.dynamic then .error .notDynamic
      else if fl.accepts value then .ok (updateFlag fs flagName value)
      else .error (.setFailed flagName value)

/-- One iteration of the `readAllFlags` node loop: a key that does not resolve
is logged and skipped, a `noValue` outcome is silent, every other error is
rendered and accumulated, and a success replaces the registry. -/
def processNode (fs : FlagSet) (etcdPath : String) (onlyDynamic : Bool) (n : Node) :
    FlagSet × Option String :=
  match nodeToFlagName etcdPath n with
  | .error _ => (fs, none)
  | .ok flagName =>
    match setFlag fs flagName n.value onlyDynamic with
    | .ok fs2 => (fs2, none)
    | .error .noValue => (fs, none)
    | .error e => (fs, some (errString e))

/-- The full node loop of `readAllFlags`, threading the registry and
accumulating rendered per-entry errors in order. -/
def processNodes (etcdPath : String) (onlyDynamic : Bool) :
    FlagSet → List Node → FlagSet × List String
  | fs, [] => (fs, [])
  | fs, n :: ns =>
    let q := processNode fs etcdPath onlyDynamic n
    let rest := processNodes etcdPath onlyDynamic q.1 ns
    (rest.1, q.2.toList ++ rest.2)

/-- Bulk read (`readAllFlags`): a failing store `Get` is returned as-is; on a
response the cursor is recorded, every node is attempted, and a nonempty
accumulation is surfaced once as an aggregate error. -/
def readAllFlags (u : Updater) (onlyDynamic : Bool) (resp : Option GetResponse) :
    Updater × Option UpdaterError :=
  match resp with
  | none => (u, some .storeError)
  | some r =>
    let p := processNodes u.etcdPath onlyDynamic u.flagSet r.nodes
    ({ u with lastIndex := r.index, flagSet := p.1 },
      if p.2.isEmpty then none else some (.aggregateErrors p.2))

/-- `Initialize`: guarded by a nonzero cursor, then a full (not
dynamic-restricted) bulk read. -/
def initializeUpdater (u : Updater) (resp : Option GetResponse) : Updater × Option UpdaterError :=
  if u.lastIndex ≠ 0 then (u, some .alreadyInitialized)
  else readAllFlags u false resp

/-- `Start`: requires a nonzero cursor and no active watch, then marks
watching (the goroutine launch itself is modelled by later watch steps). -/
def Start (u : Updater) : Updater × Option UpdaterError :=
  if u.lastIndex = 0 then (u, some .notInitialized)
  else if u.watching then (u, some .alreadyWatching)
  else ({ u with watching := true }, none)

/-- `Stop`: requires an active watch, then requests cancellation; the state
fields are untouched. -/
def Stop (u : Updater) : Updater × Option UpdaterError :=
  if !u.watching then (u, some .notWatching)
  else (u, none)

/-! The rollback sub-protocol and the watch loop body. -/

/-- A conditioned store operation issued by rollback. -/
inductive StoreOp where
  | set (key value : String) (prevIndex : Nat)
  | delete (key : String) (prevIndex : Nat)
  deriving DecidableEq

/-- Outcome reported by the store for a rollback operation. -/
inductive StoreOpResult where
  | ok
  | etcdError (code : Nat)
  | otherError (msg : String)
  deriving DecidableEq

/-- Etcd error code for a failed compare-and-swap condition. -/
def ErrorCodeTestFailed : Nat := 101

/-- Etcd error code for a compacted watch index. -/
def ErrorCodeEventIndexCleared : Nat := 401

/-- How `rollbackEtcdValue` logs the outcome of its one store operation. -/
inductive RollbackLog where
  | benignConflict
  | failure
  | success
  deriving DecidableEq

/-- Classification of the rollback outcome: a test-failed etcd error is
benign, any other error is a failure, no error is a success. -/
def classifyRollbackResult : StoreOpResult → RollbackLog
  | .etcdError code => if code = ErrorCodeTestFailed then .benignConflict else .failure
  | .otherError _ => .failure
  | .ok => .success

/-- The single operation chosen by `rollbackEtcdValue`: write the previous
value back when the event carries one, otherwise delete the key, both
conditioned on the given index. -/
def rollbackOp (lastIndex : Nat) (resp : WatchResponse) : StoreOp :=
  match resp.prevNode with
  | some prev => StoreOp.set resp.node.key prev.value lastIndex
  | none => StoreOp.delete resp.node.key lastIndex

/-- `rollbackEtcdValue`: issue the one conditioned operation against the store
and classify the result; the operation is never retried. -/
def rollbackEtcdValue (lastIndex : Nat) (resp : WatchResponse)
    (store : StoreOp → StoreOpResult) : StoreOp × RollbackLog :=
  let op := rollbackOp lastIndex resp
  (op, classifyRollbackResult (store op))

/-- Handling of one received change event in `watchForUpdates`: advance the
cursor, resolve the flag name (ignore failures), apply with the dynamic
restriction, and roll back on any error other than `noValue` and
`notDynamic`. Returns the new state and the rollback operations issued. -/
def handleEvent (u : Updater) (resp : WatchResponse)
    (store : StoreOp → StoreOpResult) : Updater × List (StoreOp × RollbackLog) :=
  let newIndex := resp.node.modifiedIndex
  match nodeToFlagName u.etcdPath resp.node with
  | .error _ => ({ u with lastIndex := newIndex }, [])
  | .ok flagName =>
    match setFlag u.flagSet flagName resp.node.value true with
    | .ok fs => ({ u with lastIndex := newIndex, flagSet := fs }, [])
    | .error .noValue => ({ u with lastIndex := newIndex }, [])
    | .error .notDynamic => ({ u with lastIndex := newIndex }, [])
    | .error _ =>
      ({ u with lastIndex := newIndex }, [rollbackEtcdValue newIndex resp store])

/-- Options used to (re)open a watcher stream. -/
structure WatcherOptions where
  afterIndex : Nat
  recursive : Bool
  deriving DecidableEq

/-- Recovery from a compacted-index watch error: re-run the bulk read
restricted to dynamic flags and reopen the watcher from the new cursor. -/
def recoverFromIndexCleared (u : Updater) (resp : Option GetResponse) :
    Updater × WatcherOptions :=
  let u2 := (readAllFlags u true resp).1
  (u2, { afterIndex := u2.lastIndex, recursive := true })

/-- Outcome of one blocking `watcher.Next` call, as classified by the loop. -/
inductive WatchResult where
  | event (resp : WatchResponse)
  | indexCleared
  | clusterError
  | deadlineExceeded
  | canceled
  | otherError

/-- One iteration of the watch loop body: events are handled, a compacted
index triggers the dynamic-only re-read, cluster/deadline/other errors retry,
and cancellation exits the loop. The boolean reports whether the loop
continues. -/
def watchStep (u : Updater) (res : WatchResult) (reread : Option GetResponse)
    (store : StoreOp → StoreOpResult) : Updater × List (StoreOp × RollbackLog) × Bool :=
  match res with
  | .event resp =>
    let q := handleEvent u resp store
    (q.1, q.2, true)
  | .indexCleared => ((readAllFlags u true reread).1, [], true)
  | .clusterError => (u, [], true)
  | .deadlineExceeded => (u, [], true)
  | .canceled => (u, [], false)
  | .otherError => (u, [], true)

/-- Any operation that can touch the shared updater state after creation:
lifecycle calls from the controlling thread and iterations of the detached
watch loop. -/
inductive Op where
  | initializeOp (resp : Option GetResponse)
  | start
  | stop
  | watchIter (res : WatchResult) (reread : Option GetResponse)
      (store : StoreOp → StoreOpResult)

/-- State transition of one operation (successful or failing). -/
def applyOp (u : Updater) : Op → Updater
  | .initializeOp r => (initializeUpdater u r).1
  | .start => (Start u).1
  | .stop => (Stop u).1
  | .watchIter res reread store => (watchStep u res reread store).1

/-- Side condition on an operation reflecting the store contract that etcd
indices in responses are positive. -/
def opIndexOk : Op → Bool
  | .watchIter (.event resp) _ _ => resp.node.modifiedIndex != 0
  | .watchIter .indexCleared (some r) _ => r.index != 0
  | _ => true

/-! The DynProto3Value container, parametrized over the message type and the
codec boundary (jsonpb and binary proto parsing, jsonpb serialization). -/

/-- The codec boundary used by `DynProto3Value`. -/
structure ProtoCodec (M : Type) where
  parseJSONPB : String → Except String M
  parseBinary : String → Except String M
  marshalJSONPB : M → Except String String

/-- State of one `DynProto3Value`: the stored instance, the optional
validator (returning an error message on rejection) and whether a notifier is
configured. -/
structure DynState (M : Type) where
  stored : M
  validator : Option (M → Option String)
  notifier : Bool

/-- `Get`: the atomically loaded current instance. -/
def dynGet {M : Type} (d : DynState M) : M :=
  d.stored

/-- Run the configured validator, if any, against a fresh instance. -/
def runValidator {M : Type} (d : DynState M) (m : M) : Option String :=
  match d.validator with
  | some v => v m
  | none => none

/-- `Set`: sniff the trimmed input for brace delimiters to choose the jsonpb
or the binary parser, run the validator, and on acceptance atomically publish
the fresh instance, reporting the notifier invocation `(old, new)` when a
notifier is configured. Returns the state after the call, the error returned
to the caller, and the notifier invocation made. -/
def dynSet {M : Type} (codec : ProtoCodec M) (d : DynState M) (input : String) :
    DynState M × Option String × Option (M × M) :=
  let trimmed := goTrimSpace input
  let parsed :=
    if goHasStart trimmed "\x7b" && goHasEnd trimmed "\x7d" then codec.parseJSONPB input
    else codec.parseBinary input
  match parsed with
  | .error e => (d, some e, none)
  | .ok m =>
    match runValidator d m with
    | some e => (d, some e, none)
    | none =>
      ({ d with stored := m }, none, if d.notifier then some (d.stored, m) else none)

/-- `String`: the compact jsonpb serialization of the current value, with a
fixed marker on serialization failure. -/
def dynString {M : Type} (codec : ProtoCodec M) (d : DynState M) : String :=
  match codec.marshalJSONPB (dynGet d) with
  | .error _ => "ERR"
  | .ok out => out

/-! Concrete fixtures used to evaluate the theorems on explicit inputs. -/

/-- A dynamic flag whose own parse/validate rejects every value. -/
def rejectFlag : Flag := { dynamic := true, accepts := fun _ => false, value := "0" }

/-- Registry holding only the rejecting flag `a`. -/
def rejectFS : FlagSet := [("a", rejectFlag)]

/-- Fresh updater over the rejecting registry. -/
def rejectUpdater : Updater :=
  { flagSet := rejectFS, etcdPath := "/config/", lastIndex := 0, watching := false }

/-- Node proposing a value the flag `a` rejects. -/
def badNode : Node := { key := "/config/a", value := "bad", dir := false, modifiedIndex := 7 }

/-- Watch response carrying the rejected value and a previous value. -/
def badResp : WatchResponse :=
  { action := "set", node := badNode,
    prevNode := some { key := "/config/a", value := "5", dir := false, modifiedIndex := 3 } }

/-- Store callback reporting a failed compare-and-swap condition. -/
def conflictStore : StoreOp → StoreOpResult := fun _ => StoreOpResult.etcdError 101

/-- Store callback reporting success. -/
def okStore : StoreOp → StoreOpResult := fun _ => StoreOpResult.ok

/-- Watching updater with an empty registry. -/
def emptyWatcher : Updater :=
  { flagSet := [], etcdPath := "/config/", lastIndex := 0, watching := true }

/-- Event for a key whose flag is not registered. -/
def unknownResp : WatchResponse :=
  { action := "set",
    node := { key := "/config/foo", value := "1", dir := false, modifiedIndex := 5 },
    prevNode := none }

/-- Node carrying an empty value. -/
def emptyValueNode : Node :=
  { key := "/config/b", value := "", dir := false, modifiedIndex := 1 }

/-- Codec over `Nat` messages whose parsers always fail. -/
def failCodec : ProtoCodec Nat :=
  { parseJSONPB := fun _ => Except.error "jsonpb parse failed"
    parseBinary := fun _ => Except.error "proto parse failed"
    marshalJSONPB := fun _ => Except.ok "0" }

/-- Dynamic value with no validator and a configured notifier. -/
def plainDyn : DynState Nat := { stored := 0, validator := none, notifier := true }

/-- A non-dynamic flag. -/
def staticFlag : Flag := { dynamic := false, accepts := fun _ => true, value := "s" }

/-- Registry with one static and one dynamic flag. -/
def mixedFS : FlagSet :=
  [("stat", staticFlag), ("dyn", { dynamic := true, accepts := fun _ => true, value := "d" })]

/-- Watching updater over the mixed registry. -/
def mixedUpdater : Updater :=
  { flagSet := mixedFS, etcdPath := "/config/", lastIndex := 2, watching := true }

/-- Recovery snapshot trying to clobber both flags. -/
def recoveryResp : GetResponse :=
  { index := 9,
    nodes := [{ key := "/config/stat", value := "clobber", dir := false, modifiedIndex := 8 },
              { key := "/config/dyn", value := "new", dir := false, modifiedIndex := 9 }] }

/-- Event for a key two segments below the prefix. -/
def deepResp : WatchResponse :=
  { action := "set",
    node := { key := "/config/sub/x", value := "1", dir := false, modifiedIndex := 3 },
    prevNode := none }

/-- Watching updater used with the deep key event. -/
def deepUpdater : Updater :=
  { flagSet := rejectFS, etcdPath := "/config/", lastIndex := 3, watching := true }

/-- Codec over `Nat` messages that round-trips the value `0` through the
brace-delimited text form. -/
def roundCodec : ProtoCodec Nat :=
  { parseJSONPB := fun s => if s = "\x7b0\x7d" then Except.ok 0 else Except.error "bad json"
    parseBinary := fun _ => Except.error "bad bin"
    marshalJSONPB := fun n => if n = 0 then Except.ok "\x7b0\x7d" else Except.error "unserializable" }

/-- Dynamic value whose validator rejects everything. -/
def rejectValDyn : DynState Nat :=
  { stored := 0, validator := some (fun _ => some "rejected"), notifier := false }

/-- Dynamic value whose validator accepts everything. -/
def acceptValDyn : DynState Nat :=
  { stored := 0, validator := some (fun _ => none), notifier := false }

/-- Freshly constructed updater (zero cursor, not watching). -/
def freshUpdater : Updater := New [] "/config"

/-- Updater with a recorded cursor and an active watch. -/
def activeUpdater : Updater :=
  { flagSet := [], etcdPath := "/config/", lastIndex := 4, watching := true }

/-- Updater in the state left by a successful `Start`. -/
def liveUpdater : Updater :=
  { flagSet := [], etcdPath := "/c/", lastIndex := 5, watching := true }

/-- A sequence of operations performed after `Start`: a `Stop`, the watch loop
iteration observing the cancellation, and a restart attempt. -/
def lifecycleOps : List Op :=
  [Op.stop, Op.watchIter WatchResult.canceled none okStore, Op.start]

/-! Helper lemmas. -/

theorem lookupFlag_updateFlag_ne (fs : FlagSet) (nm v name : String) (h : name ≠ nm) :
    lookupFlag (updateFlag fs nm v) name = lookupFlag fs name := by
  induction fs with
  | nil => rfl
  | cons p rest ih =>
    obtain ⟨k, f⟩ := p
    by_cases hk : k = nm
    · subst hk
      simp only [updateFlag, if_pos rfl, lookupFlag]
      rw [if_neg (fun hkn => h hkn.symm), if_neg (fun hkn => h hkn.symm)]
    · simp only [updateFlag, if_neg hk, lookupFlag]
      by_cases hkn : k = name
      · rw [if_pos hkn, if_pos hkn]
      · rw [if_neg hkn, if_neg hkn, ih]

theorem setFlag_ok_inv (fs : FlagSet) (nm v : String) (b : Bool) (fs2 : FlagSet)
    (h : setFlag fs nm v b = .ok fs2) :
    fs2 = updateFlag fs nm v ∧
      ∃ fl, lookupFlag fs nm = some fl ∧ (b = true → fl.dynamic = true) := by
  unfold setFlag at h
  split at h
  · exact absurd h (by simp)
  · split at h
    · exact absurd h (by simp)
    next fl hl =>
      split at h
      · exact absurd h (by simp)
      next hd =>
        split at h
        next ha =>
          have hfs : fs2 = updateFlag fs nm v := by
            injection h with h2
            exact h2.symm
          refine ⟨hfs, fl, hl, fun hb => ?_⟩
          subst hb
          simpa using hd
        next ha => exact absurd h (by simp)

theorem processNode_preserves_static (fs : FlagSet) (p : String) (n : Node)
    (name : String) (f : Flag) (hl : lookupFlag fs name = some f)
    (hd : f.dynamic = false) :
    lookupFlag (processNode fs p true n).1 name = some f := by
  unfold processNode
  split
  · exact hl
  next nm hn =>
    split
    next fs2 hs =>
      obtain ⟨hup, fl, hfl, hdyn⟩ := setFlag_ok_inv fs nm n.value true fs2 hs
      subst hup
      by_cases hnm : name = nm
      · subst hnm
        rw [hl] at hfl
        have hfe : f = fl := by injection hfl
        rw [hfe, hdyn rfl] at hd
        exact absurd hd (by simp)
      · rw [lookupFlag_updateFlag_ne fs nm n.value name hnm]
        exact hl
    · exact hl
    · exact hl

theorem processNodes_preserves_static (p : String) (ns : List Node) :
    ∀ (fs : FlagSet) (name : String) (f : Flag),
      lookupFlag fs name = some f → f.dynamic = false →
      lookupFlag (processNodes p true fs ns).1 name = some f := by
  induction ns with
  | nil => intro fs name f hl _; exact hl
  | cons n ns ih =>
    intro fs name f hl hd
    simp only [processNodes]
    exact ih _ name f (processNode_preserves_static fs p n name f hl hd) hd

theorem processNodes_append (p : String) (b : Bool) (ns1 ns2 : List Node) :
    ∀ fs : FlagSet,
      processNodes p b fs (ns1 ++ ns2) =
        ((processNodes p b (processNodes p b fs ns1).1 ns2).1,
         (processNodes p b fs ns1).2 ++ (processNodes p b (processNodes p b fs ns1).1 ns2).2) := by
  induction ns1 with
  | nil => intro fs; simp [processNodes]
  | cons n ns ih =>
    intro fs
    simp only [List.cons_append, processNodes, List.append_eq]
    rw [ih]
    simp [List.append_assoc]

theorem processNode_empty_value (fs : FlagSet) (p : String) (b : Bool) (n : Node)
    (hv : n.value = "") : processNode fs p b n = (fs, none) := by
  unfold processNode
  cases hn : nodeToFlagName p n with
  | error e => rfl
  | ok nm => simp [setFlag, hv]

theorem handleEvent_frame (u : Updater) (resp : WatchResponse)
    (store : StoreOp → StoreOpResult) :
    (handleEvent u resp store).1.watching = u.watching ∧
      (handleEvent u resp store).1.lastIndex = resp.node.modifiedIndex ∧
      (handleEvent u resp store).1.etcdPath = u.etcdPath := by
  unfold handleEvent
  split
  · exact ⟨rfl, rfl, rfl⟩
  next nm hn =>
    split <;> exact ⟨rfl, rfl, rfl⟩

theorem Stop_fst (u : Updater) : (Stop u).1 = u := by
  unfold Stop
  by_cases h : (!u.watching) = true
  · rw [if_pos h]
  · rw [if_neg h]

theorem applyOp_invariant (u : Updater) (op : Op)
    (hw : u.watching = true) (hi : u.lastIndex ≠ 0) (hop : opIndexOk op = true) :
    (applyOp u op).watching = true ∧ (applyOp u op).lastIndex ≠ 0 := by
  cases op with
  | initializeOp r =>
    have he : applyOp u (Op.initializeOp r) = u := by
      show (initializeUpdater u r).1 = u
      unfold initializeUpdater
      rw [if_pos hi]
    rw [he]
    exact ⟨hw, hi⟩
  | start =>
    have he : applyOp u Op.start = u := by
      show (Start u).1 = u
      unfold Start
      rw [if_neg hi, hw, if_pos rfl]
    rw [he]
    exact ⟨hw, hi⟩
  | stop =>
    show ((Stop u).1.watching = true ∧ (Stop u).1.lastIndex ≠ 0)
    rw [Stop_fst]
    exact ⟨hw, hi⟩
  | watchIter res reread store =>
    cases res with
    | event resp =>
      obtain ⟨h1, h2, _⟩ := handleEvent_frame u resp store
      refine ⟨?_, ?_⟩
      · show (handleEvent u resp store).1.watching = true
        rw [h1]; exact hw
      · show (handleEvent u resp store).1.lastIndex ≠ 0
        rw [h2]
        simpa [opIndexOk] using hop
    | indexCleared =>
      cases reread with
      | none => exact ⟨hw, hi⟩
      | some r =>
        refine ⟨hw, ?_⟩
        show r.index ≠ 0
        simpa [opIndexOk] using hop
    | clusterError => exact ⟨hw, hi⟩
    | deadlineExceeded => exact ⟨hw, hi⟩
    | canceled => exact ⟨hw, hi⟩
    | otherError => exact ⟨hw, hi⟩

/-! Claim theorems. -/

/-- C1: a watched change event whose value is rejected by the flag's own
parse/validate triggers exactly one rollback operation — a store Set writing
the previous value back when the event carries one, otherwise a Delete of the
key, in both cases conditioned on prevIndex equal to the modified index of
the rejected change; a test-failed outcome of that single operation is
classified benign, and any other error a failure (with no retry, since only
the one operation is issued). -/
theorem rejectedUpdateRollsBack (u : Updater) (resp : WatchResponse)
    (store : StoreOp → StoreOpResult) (flagName v : String)
    (hname : nodeToFlagName u.etcdPath resp.node = .ok flagName)
    (hset : setFlag u.flagSet flagName resp.node.value true =
      .error (.setFailed flagName v)) :
    (handleEvent u resp store).2 =
      [((match resp.prevNode with
         | some prev => StoreOp.set resp.node.key prev.value resp.node.modifiedIndex
         | none => StoreOp.delete resp.node.key resp.node.modifiedIndex),
        classifyRollbackResult (store (match resp.prevNode with
         | some prev => StoreOp.set resp.node.key prev.value resp.node.modifiedIndex
         | none => StoreOp.delete resp.node.key resp.node.modifiedIndex)))] ∧
    (∀ c, classifyRollbackResult (StoreOpResult.etcdError c) =
      if c = ErrorCodeTestFailed then RollbackLog.benignConflict else RollbackLog.failure) ∧
    (∀ m, classifyRollbackResult (StoreOpResult.otherError m) = RollbackLog.failure) := by
  refine ⟨?_, fun c => rfl, fun m => rfl⟩
  simp only [handleEvent, hname, hset, rollbackEtcdValue, rollbackOp]

/-- C1 witness: the concrete rejected update issues the single conditioned
write of the previous value, and the test-failed store outcome is benign. -/
theorem rejectedUpdateRollsBack_witness :
    (handleEvent rejectUpdater badResp conflictStore).2 =
      [(StoreOp.set "/config/a" "5" 7, RollbackLog.benignConflict)] :=
  (rejectedUpdateRollsBack rejectUpdater badResp conflictStore "a" "bad" rfl rfl).1

/-- C2: during the bulk read every entry is attempted regardless of earlier
failures (processing a concatenation runs the suffix from the state the one
before reached, concatenating both error lists), `Initialize` keeps the
successfully applied entries in the registry and reports all failures once as
a single aggregate error after the full pass, and entries with an empty value
are skipped without contributing an error. -/
theorem initializeAccumulatesErrors (u : Updater) (r : GetResponse)
    (p : String) (b : Bool) (fs : FlagSet) (ns1 ns2 : List Node) (n : Node)
    (hinit : u.lastIndex = 0) :
    processNodes p b fs (ns1 ++ ns2) =
      ((processNodes p b (processNodes p b fs ns1).1 ns2).1,
       (processNodes p b fs ns1).2 ++ (processNodes p b (processNodes p b fs ns1).1 ns2).2) ∧
    (initializeUpdater u (some r)).1.flagSet =
      (processNodes u.etcdPath false u.flagSet r.nodes).1 ∧
    (initializeUpdater u (some r)).2 =
      (if (processNodes u.etcdPath false u.flagSet r.nodes).2.isEmpty then none
       else some (UpdaterError.aggregateErrors
         (processNodes u.etcdPath false u.flagSet r.nodes).2)) ∧
    (n.value = "" → processNode fs p b n = (fs, none)) := by
  have hcond : ¬(u.lastIndex ≠ 0) := fun h => h hinit
  refine ⟨processNodes_append p b ns1 ns2 fs, ?_, ?_, processNode_empty_value fs p b n⟩
  · unfold initializeUpdater
    rw [if_neg hcond]
    exact rfl
  · unfold initializeUpdater
    rw [if_neg hcond]
    exact rfl

/-- C2 witness: an empty-valued entry is skipped silently. -/
theorem initializeAccumulatesErrors_witness :
    processNode rejectFS "/config/" false emptyValueNode = (rejectFS, none) :=
  (initializeAccumulatesErrors rejectUpdater ⟨5, []⟩ "/config/" false rejectFS [] []
    emptyValueNode rfl).2.2.2 rfl

/-- C3 counterexample: the watched event for the unregistered flag `foo`
carrying value `1` does issue a rollback operation, so the claim that such an
event is ignored with no rollback is false on the code. -/
theorem unknownFlagIgnored_cex :
    (handleEvent emptyWatcher unknownResp okStore).2 ≠ [] := by
  decide

/-- C3 (amended): an event whose resolved flag name is not registered is
ignored (log only) only when the event value is empty; with a nonempty value
the failed update issues the single conditioned rollback operation. In both
cases the registry is unchanged and the loop keeps watching. -/
theorem unknownFlagRollsBack (u : Updater) (resp : WatchResponse)
    (store : StoreOp → StoreOpResult) (flagName : String)
    (hname : nodeToFlagName u.etcdPath resp.node = .ok flagName)
    (hlook : lookupFlag u.flagSet flagName = none) :
    (resp.node.value = "" → (handleEvent u resp store).2 = []) ∧
    (resp.node.value ≠ "" →
      (handleEvent u resp store).2 =
        [rollbackEtcdValue resp.node.modifiedIndex resp store]) ∧
    (handleEvent u resp store).1.flagSet = u.flagSet ∧
    (handleEvent u resp store).1.watching = u.watching := by
  by_cases hv : resp.node.value = ""
  · have hs : setFlag u.flagSet flagName resp.node.value true = .error .noValue := by
      unfold setFlag
      rw [if_pos hv]
    refine ⟨fun _ => ?_, fun hne => absurd hv hne, ?_, (handleEvent_frame u resp store).1⟩
    · simp only [handleEvent, hname, hs]
    · simp only [handleEvent, hname, hs]
  · have hs : setFlag u.flagSet flagName resp.node.value true =
        .error (.notFound flagName) := by
      unfold setFlag
      rw [if_neg hv, hlook]
    refine ⟨fun he => absurd he hv, fun _ => ?_, ?_, (handleEvent_frame u resp store).1⟩
    · simp only [handleEvent, hname, hs]
    · simp only [handleEvent, hname, hs]

/-- C3 (amended) witness: the concrete unregistered-flag event with a
nonempty value issues the one rollback operation and leaves the registry
unchanged. -/
theorem unknownFlagRollsBack_witness :
    (handleEvent emptyWatcher unknownResp okStore).2 =
      [rollbackEtcdValue 5 unknownResp okStore] ∧
    (handleEvent emptyWatcher unknownResp okStore).1.flagSet = emptyWatcher.flagSet :=
  ⟨(unknownFlagRollsBack emptyWatcher unknownResp okStore "foo" rfl rfl).2.1 (by decide),
   (unknownFlagRollsBack emptyWatcher unknownResp okStore "foo" rfl rfl).2.2.1⟩

/-- C4: whenever `Set` returns an error (a parse failure in either encoding
or a validator rejection), the stored value is unchanged — `Get` afterwards
returns exactly what it returned before the call — and no notifier
invocation is made for that call. -/
theorem failedDynSetLeavesValue {M : Type} (codec : ProtoCodec M) (d : DynState M)
    (input : String) (e : String)
    (h : (dynSet codec d input).2.1 = some e) :
    dynGet (dynSet codec d input).1 = dynGet d ∧ (dynSet codec d input).2.2 = none := by
  simp only [dynSet]
  split
  · exact ⟨rfl, rfl⟩
  next m heq =>
    split
    · exact ⟨rfl, rfl⟩
    next hv =>
      exfalso
      simp only [dynSet, heq, hv] at h
      exact Option.noConfusion h

/-- C4 witness: a failing parse leaves the stored value and makes no notifier
invocation, even with a notifier configured. -/
theorem failedDynSetLeavesValue_witness :
    dynGet (dynSet failCodec plainDyn "x").1 = dynGet plainDyn ∧
      (dynSet failCodec plainDyn "x").2.2 = none :=
  failedDynSetLeavesValue failCodec plainDyn "x" "proto parse failed" rfl

/-- C5 counterexample: an `Initialize` call whose snapshot has a per-entry
failure returns an aggregate error — so no successful `Initialize` has
happened — yet the following `Start` succeeds instead of failing with the
not-initialized error. -/
theorem lifecycleGuards_cex :
    (initializeUpdater rejectUpdater (some ⟨5, [badNode]⟩)).2.isSome = true ∧
      (Start (initializeUpdater rejectUpdater (some ⟨5, [badNode]⟩)).1).2 = none :=
  ⟨rfl, rfl⟩

/-- C5 (amended): the lifecycle guards are driven by the recorded cursor, not
by success of `Initialize`: `Start` fails not-initialized exactly while the
cursor is zero (an `Initialize` that read a snapshot but reported per-entry
failures still counts as initialized); `Initialize` fails already-initialized
when the cursor is nonzero; `Stop` with no active watch fails not-watching;
`Start` with a nonzero cursor and an active watch fails already-watching. -/
theorem lifecycleGuards (u : Updater) (resp : Option GetResponse) :
    (u.lastIndex = 0 → (Start u).2 = some UpdaterError.notInitialized) ∧
    (u.lastIndex ≠ 0 → (initializeUpdater u resp).2 = some UpdaterError.alreadyInitialized) ∧
    (u.watching = false → (Stop u).2 = some UpdaterError.notWatching) ∧
    (u.lastIndex ≠ 0 → u.watching = true → (Start u).2 = some UpdaterError.alreadyWatching) := by
  refine ⟨fun h0 => ?_, fun hne => ?_, fun hw => ?_, fun hne hw => ?_⟩
  · unfold Start
    rw [if_pos h0]
  · unfold initializeUpdater
    rw [if_pos hne]
  · unfold Stop
    rw [if_pos (show (!u.watching) = true by rw [hw]; rfl)]
  · unfold Start
    rw [if_neg hne, if_pos hw]

/-- C5 (amended) witness: the four guards at concrete updater states. -/
theorem lifecycleGuards_witness :
    (Start freshUpdater).2 = some UpdaterError.notInitialized ∧
    (initializeUpdater activeUpdater none).2 = some UpdaterError.alreadyInitialized ∧
    (Stop freshUpdater).2 = some UpdaterError.notWatching ∧
    (Start activeUpdater).2 = some UpdaterError.alreadyWatching :=
  ⟨(lifecycleGuards freshUpdater none).1 rfl,
   (lifecycleGuards activeUpdater none).2.1 (by decide),
   (lifecycleGuards freshUpdater none).2.2.1 rfl,
   (lifecycleGuards activeUpdater none).2.2.2 (by decide) rfl⟩

/-- C6: the recovery re-read after a compacted-index watch error applies only
dynamic flags — every registered non-dynamic flag is unchanged by it — and
the watcher is reopened with the cursor returned by that fresh read. -/
theorem recoveryPreservesStaticFlags (u : Updater) (r : GetResponse)
    (name : String) (f : Flag)
    (hl : lookupFlag u.flagSet name = some f) (hd : f.dynamic = false) :
    lookupFlag (recoverFromIndexCleared u (some r)).1.flagSet name = some f ∧
      (recoverFromIndexCleared u (some r)).2.afterIndex = r.index := by
  constructor
  · show lookupFlag (processNodes u.etcdPath true u.flagSet r.nodes).1 name = some f
    exact processNodes_preserves_static u.etcdPath r.nodes u.flagSet name f hl hd
  · rfl

/-- C6 witness: the concrete recovery read clobbers the dynamic flag only,
keeps the static flag, and reopens the watch at the fresh index. -/
theorem recoveryPreservesStaticFlags_witness :
    lookupFlag (recoverFromIndexCleared mixedUpdater (some recoveryResp)).1.flagSet "stat" =
      some staticFlag ∧
    (recoverFromIndexCleared mixedUpdater (some recoveryResp)).2.afterIndex = 9 :=
  recoveryPreservesStaticFlags mixedUpdater recoveryResp "stat" staticFlag rfl rfl

/-- C7: a directory node, a key outside the normalized prefix, or a key more
than one segment below it never resolves to a flag name, and therefore never
produces a flag update — neither in the bulk read (the node is skipped with
no error) nor while watching (no registry change and no rollback). -/
theorem nonLeafKeysNeverUpdate (u : Updater) (resp : WatchResponse)
    (store : StoreOp → StoreOpResult)
    (hbad : resp.node.dir = true ∨ goHasStart resp.node.key u.etcdPath = false ∨
      0 < countSlash (goTrimStart resp.node.key u.etcdPath)) :
    (∀ s, nodeToFlagName u.etcdPath resp.node ≠ .ok s) ∧
    (∀ fs b, processNode fs u.etcdPath b resp.node = (fs, none)) ∧
    (handleEvent u resp store).1.flagSet = u.flagSet ∧
    (handleEvent u resp store).2 = [] := by
  have herr : ∀ s, nodeToFlagName u.etcdPath resp.node ≠ .ok s := by
    intro s hok
    simp only [nodeToFlagName] at hok
    by_cases hdir : resp.node.dir = true
    · rw [if_pos hdir] at hok
      exact Except.noConfusion hok
    · rw [if_neg hdir] at hok
      by_cases hstart : goHasStart resp.node.key u.etcdPath = true
      · have hnb : ¬((!goHasStart resp.node.key u.etcdPath) = true) := by
          rw [hstart]
          intro hc
          exact Bool.noConfusion hc
        rw [if_neg hnb] at hok
        rcases hbad with h | h | h
        · exact hdir h
        · rw [hstart] at h
          exact Bool.noConfusion h
        · rw [if_pos h] at hok
          exact Except.noConfusion hok
      · have hs2 : goHasStart resp.node.key u.etcdPath = false :=
          Bool.eq_false_iff.mpr hstart
        rw [if_pos (show (!goHasStart resp.node.key u.etcdPath) = true by rw [hs2]; rfl)] at hok
        exact Except.noConfusion hok
  have hproc : ∀ fs b, processNode fs u.etcdPath b resp.node = (fs, none) := by
    intro fs b
    unfold processNode
    cases hn : nodeToFlagName u.etcdPath resp.node with
    | error e => rfl
    | ok s => exact absurd hn (herr s)
  have hhandle : (handleEvent u resp store).1.flagSet = u.flagSet ∧
      (handleEvent u resp store).2 = [] := by
    unfold handleEvent
    cases hn : nodeToFlagName u.etcdPath resp.node with
    | error e => exact ⟨rfl, rfl⟩
    | ok s => exact absurd hn (herr s)
  exact ⟨herr, hproc, hhandle.1, hhandle.2⟩

/-- C7 witness: the key two segments deep is skipped in both paths. -/
theorem nonLeafKeysNeverUpdate_witness :
    processNode rejectFS "/config/" false deepResp.node = (rejectFS, none) ∧
      (handleEvent deepUpdater deepResp okStore).2 = [] :=
  ⟨(nonLeafKeysNeverUpdate deepUpdater deepResp okStore
      (Or.inr (Or.inr (by decide)))).2.1 rejectFS false,
   (nonLeafKeysNeverUpdate deepUpdater deepResp okStore
      (Or.inr (Or.inr (by decide)))).2.2.2⟩

/-- C8: `Set` selects the decoding by sniffing: when the whitespace-trimmed
input both starts with an opening brace and ends with a closing one, the call
is decided entirely by the jsonpb parser (the binary parser is irrelevant),
otherwise entirely by the binary parser; a failure of the selected parser
makes `Set` return exactly that parse error with nothing published. -/
theorem sniffSelectsDecoder {M : Type} (codec : ProtoCodec M) (d : DynState M)
    (input : String) :
    ((goHasStart (goTrimSpace input) "\x7b" && goHasEnd (goTrimSpace input) "\x7d") = true →
      (∀ e, codec.parseJSONPB input = .error e → dynSet codec d input = (d, some e, none)) ∧
      (∀ g, dynSet codec d input = dynSet { codec with parseBinary := g } d input)) ∧
    ((goHasStart (goTrimSpace input) "\x7b" && goHasEnd (goTrimSpace input) "\x7d") = false →
      (∀ e, codec.parseBinary input = .error e → dynSet codec d input = (d, some e, none)) ∧
      (∀ g, dynSet codec d input = dynSet { codec with parseJSONPB := g } d input)) := by
  constructor
  · intro hc
    constructor
    · intro e he
      simp [dynSet, hc, he]
    · intro g
      simp [dynSet, hc]
  · intro hc
    constructor
    · intro e he
      simp [dynSet, hc, he]
    · intro g
      simp [dynSet, hc]

/-- C8 witness: a brace-delimited input is decided by the jsonpb parser and
its failure is returned by `Set`. -/
theorem sniffSelectsDecoder_witness :
    dynSet failCodec plainDyn "\x7b1\x7d" = (plainDyn, some "jsonpb parse failed", none) :=
  ((sniffSelectsDecoder failCodec plainDyn "\x7b1\x7d").1 (by decide)).1
    "jsonpb parse failed" rfl

/-- C9 counterexample: the stored value serializes successfully, the parser
maps the serialized string back to the very same value, yet `Set` applied to
the output of `String` fails — the configured validator rejects the
re-parsed value — so the round-trip claim is false on the code. -/
theorem roundTrip_cex :
    roundCodec.marshalJSONPB (dynGet rejectValDyn) = Except.ok "\x7b0\x7d" ∧
    roundCodec.parseJSONPB "\x7b0\x7d" = Except.ok (dynGet rejectValDyn) ∧
    (dynSet roundCodec rejectValDyn (dynString roundCodec rejectValDyn)).2.1 =
      some "rejected" := by
  refine ⟨rfl, rfl, by decide⟩

/-- C9 (amended): the round-trip holds when the encoding boundary and the
validator cooperate: if the stored value serializes to a brace-delimited
string, the jsonpb parser maps that string to a value, and the configured
validator (if any) accepts that value, then `Set` on the output of `String`
succeeds and `Get` afterwards returns the re-parsed value — the serialized
one whenever the parser inverts the serialization. -/
theorem roundTripAmended {M : Type} (codec : ProtoCodec M) (d : DynState M)
    (s : String) (m : M)
    (hm : codec.marshalJSONPB (dynGet d) = .ok s)
    (hb : (goHasStart (goTrimSpace s) "\x7b" && goHasEnd (goTrimSpace s) "\x7d") = true)
    (hp : codec.parseJSONPB s = .ok m)
    (hv : runValidator d m = none) :
    (dynSet codec d (dynString codec d)).2.1 = none ∧
      dynGet (dynSet codec d (dynString codec d)).1 = m := by
  have hstr : dynString codec d = s := by
    unfold dynString
    rw [hm]
  rw [hstr]
  simp [dynSet, hb, hp, hv, dynGet]

/-- C9 (amended) witness: with an accepting validator the concrete value
round-trips through its serialization. -/
theorem roundTripAmended_witness :
    (dynSet roundCodec acceptValDyn (dynString roundCodec acceptValDyn)).2.1 = none ∧
      dynGet (dynSet roundCodec acceptValDyn (dynString roundCodec acceptValDyn)).1 = 0 :=
  roundTripAmended roundCodec acceptValDyn "\x7b0\x7d" 0 rfl (by decide) rfl rfl

/-- C10: once `Start` has succeeded (the watching marker is set and the
cursor nonzero), no sequence of operations — lifecycle calls or watch-loop
iterations with positive store indices, including the iteration that observes
cancellation and exits the loop — ever resets the watching marker: `Stop`
still succeeds and `Start` still fails with the already-watching error, so a
stopped updater can never be restarted. -/
theorem watchingNeverReset (u : Updater) (ops : List Op)
    (hw : u.watching = true) (hi : u.lastIndex ≠ 0)
    (hops : ops.all opIndexOk = true) :
    (ops.foldl applyOp u).watching = true ∧
    (ops.foldl applyOp u).lastIndex ≠ 0 ∧
    (Stop (ops.foldl applyOp u)).2 = none ∧
    (Start (ops.foldl applyOp u)).2 = some UpdaterError.alreadyWatching := by
  have hmain : ∀ (l : List Op) (v : Updater), v.watching = true → v.lastIndex ≠ 0 →
      l.all opIndexOk = true →
      (l.foldl applyOp v).watching = true ∧ (l.foldl applyOp v).lastIndex ≠ 0 := by
    intro l
    induction l with
    | nil =>
      intro v hv hi2 _
      exact ⟨hv, hi2⟩
    | cons op rest ih =>
      intro v hv hi2 hall
      rw [List.all_cons, Bool.and_eq_true] at hall
      obtain ⟨h1, h2⟩ := applyOp_invariant v op hv hi2 hall.1
      exact ih (applyOp v op) h1 h2 hall.2
  obtain ⟨h1, h2⟩ := hmain ops u hw hi hops
  refine ⟨h1, h2, ?_, ?_⟩
  · have hnc : ¬((!(ops.foldl applyOp u).watching) = true) := by
      rw [h1]
      intro hc
      exact Bool.noConfusion hc
    unfold Stop
    rw [if_neg hnc]
  · unfold Start
    rw [if_neg h2, if_pos h1]

/-- C10 witness: after `Stop`, the loop iteration observing cancellation, and
a restart attempt, the concrete updater still reports watching: `Stop` keeps
succeeding and `Start` keeps failing already-watching. -/
theorem watchingNeverReset_witness :
    (lifecycleOps.foldl applyOp liveUpdater).watching = true ∧
    (lifecycleOps.foldl applyOp liveUpdater).lastIndex ≠ 0 ∧
    (Stop (lifecycleOps.foldl applyOp liveUpdater)).2 = none ∧
    (Start (lifecycleOps.foldl applyOp liveUpdater)).2 = some UpdaterError.alreadyWatching :=
  watchingNeverReset liveUpdater lifecycleOps rfl (by decide) rfl

end GoFlagz
